import Mathlib

/-!
Verification development for the ClawBeam repository.

The repository contains two parallel implementations of its core modules:
a package-level implementation (state_machine.py, parser.py,
session_watcher.py, config.py — embedded below under the `SM1` / `P1`
namespaces) and a second implementation under the clawbeam/ directory
(clawbeam/state_machine.py, clawbeam/parser.py, clawbeam/session_watcher.py,
clawbeam/wled_client.py — embedded under `CB` / `P2` / `Wled`).  Both are
embedded faithfully, since they diverge on several behaviours.

Modelling conventions:
* Python floats used for monotonic timestamps and durations are modelled
  as rationals (ℚ).
* The async transition observer callback is modelled as a function
  `LampState → LampState → Bool` returning `true` when the callback raises
  an exception.  Machine entry points return an `Outcome` carrying the
  resulting machine, the list of observer notifications delivered, and a
  flag recording whether an exception escaped the entry point.
* asyncio bookkeeping (locks, idle-timer task objects, sleeps) has no
  effect on the lamp-state fields the claims are about and is noted in
  comments where the source touches it.
-/

/-- Logical lamp states, from both state_machine.py variants (identical enums). -/
inductive LampState where
  | IDLE
  | USER_INPUT
  | THINKING
  | TOOL_CALL
  | TOOL_SUCCESS
  | TOOL_ERROR
  | NETWORK_ERROR
  | HIGH_TOKENS
deriving DecidableEq

/-- Canonical event types from parser.py (same constructors in both variants). -/
inductive EventType where
  | USER_INPUT
  | ASSISTANT
  | TOOL_CALL
  | TOOL_RESULT_SUCCESS
  | TOOL_RESULT_ERROR
  | UNKNOWN
deriving DecidableEq

/-- Severity levels (parser.py has INFO/WARNING/ERROR; clawbeam/parser.py INFO/ERROR). -/
inductive Severity where
  | INFO
  | WARNING
  | ERROR
deriving DecidableEq

/-- Timing configuration, from config.py StateMachineConfig. -/
structure StateMachineConfig where
  min_state_duration : ℚ
  idle_timeout : ℚ
  debounce_window : ℚ
deriving DecidableEq

/-- The two fields of a parsed Event that the state machines read:
event.event_type and event.token_count (declared Optional[int] in parser.py). -/
structure SMEvent where
  event_type : EventType
  token_count : Option ℤ
deriving DecidableEq

namespace SM1

/-! Embedding of state_machine.py (package-level variant). -/

/-- Mutable fields of StateMachine (state_machine.py lines 63-67); the
asyncio idle-task handle is omitted (it never affects these fields). -/
structure Machine where
  state : LampState
  state_entered_at : ℚ
  last_activity : ℚ
  last_transition_key : Option (LampState × LampState)
  last_transition_time : ℚ
deriving DecidableEq

/-- The module-level _EVENT_TO_STATE dict: UNKNOWN has no entry, so
dict.get returns None for it. -/
def EVENT_TO_STATE : EventType → Option LampState
  | .USER_INPUT => some .USER_INPUT
  | .ASSISTANT => some .THINKING
  | .TOOL_CALL => some .TOOL_CALL
  | .TOOL_RESULT_SUCCESS => some .TOOL_SUCCESS
  | .TOOL_RESULT_ERROR => some .TOOL_ERROR
  | .UNKNOWN => none

def HIGH_TOKEN_THRESHOLD : ℤ := 4000

/-- Result of one entry-point call: the machine afterwards, the (old, new)
observer notifications delivered, and whether an exception escaped. -/
structure Outcome where
  machine : Machine
  notified : List (LampState × LampState)
  raised : Bool
deriving DecidableEq

/-- StateMachine._try_transition (state_machine.py lines 105-132).  The
observer call is wrapped in try/except Exception, so its outcome never
affects the result; `obs old target = true` models the callback raising. -/
def try_transition (cfg : StateMachineConfig) (obs : LampState → LampState → Bool)
    (m : Machine) (target : LampState) (now : ℚ) : Outcome :=
  if now - m.state_entered_at < cfg.min_state_duration then ⟨m, [], false⟩
  else
    let key : LampState × LampState := (m.state, target)
    if some key = m.last_transition_key ∧ now - m.last_transition_time < cfg.debounce_window then
      ⟨m, [], false⟩
    else if target = m.state then ⟨m, [], false⟩
    else
      let old := m.state
      let m' : Machine :=
        { state := target
          state_entered_at := now
          last_activity := m.last_activity
          last_transition_key := some key
          last_transition_time := now }
      -- observer invoked after the commit; any exception is caught and logged
      let _ := obs old target
      ⟨m', [(old, target)], false⟩

/-- Python truthiness of `event.token_count and event.token_count >= HIGH_TOKEN_THRESHOLD`
(state_machine.py line 86): None and 0 are falsy, otherwise compare. -/
def token_override : Option ℤ → Bool
  | none => false
  | some n => if n = 0 then false else decide (HIGH_TOKEN_THRESHOLD ≤ n)

/-- StateMachine.handle_event (state_machine.py lines 77-92).  Recording
last_activity and restarting the idle timer happen unconditionally; the
idle-timer task itself is asyncio bookkeeping with no effect on these fields. -/
def handle_event (cfg : StateMachineConfig) (obs : LampState → LampState → Bool)
    (m : Machine) (e : SMEvent) (now : ℚ) : Outcome :=
  let m1 : Machine := { m with last_activity := now }
  let target0 := EVENT_TO_STATE e.event_type
  let target := if token_override e.token_count then some LampState.HIGH_TOKENS else target0
  match target with
  | none => ⟨m1, [], false⟩
  | some t => try_transition cfg obs m1 t now

/-- StateMachine.set_network_error (state_machine.py lines 94-96). -/
def set_network_error (cfg : StateMachineConfig) (obs : LampState → LampState → Bool)
    (m : Machine) (now : ℚ) : Outcome :=
  try_transition cfg obs m LampState.NETWORK_ERROR now

/-- StateMachine.clear_network_error (state_machine.py lines 98-101). -/
def clear_network_error (cfg : StateMachineConfig) (obs : LampState → LampState → Bool)
    (m : Machine) (now : ℚ) : Outcome :=
  if m.state = LampState.NETWORK_ERROR then try_transition cfg obs m LampState.IDLE now
  else ⟨m, [], false⟩

/-- Run a sequence of transition requests (target, monotonic time) through
_try_transition, collecting the committed transitions with their times. -/
def run (cfg : StateMachineConfig) (obs : LampState → LampState → Bool)
    (m : Machine) : List (LampState × ℚ) → Machine × List (LampState × LampState × ℚ)
  | [] => (m, [])
  | (t, now) :: rest =>
    let o := try_transition cfg obs m t now
    let (mf, cs) := run cfg obs o.machine rest
    (mf, (o.notified.map (fun p => (p.1, p.2, now))) ++ cs)

end SM1

namespace CB

/-! Embedding of clawbeam/state_machine.py. -/

/-- Mutable fields of clawbeam StateMachine (lines 36-43): current state,
entry timestamp, and the per-(old,new)-pair last-fired dict.  The dict is
modelled as an association list; insertion prepends, lookup takes the first
match, which matches Python dict get/set observably. -/
structure Machine where
  state : LampState
  state_entered_at : ℚ
  last_transition_times : List ((LampState × LampState) × ℚ)
deriving DecidableEq

/-- dict.get on the last-transition-times dict. -/
def dictGet : List ((LampState × LampState) × ℚ) → (LampState × LampState) → Option ℚ
  | [], _ => none
  | (k, v) :: rest, key => if k = key then some v else dictGet rest key

structure Outcome where
  machine : Machine
  notified : List (LampState × LampState)
  raised : Bool
deriving DecidableEq

/-- StateMachine._do_transition (clawbeam/state_machine.py lines 52-85).
The observer call has no try/except in this variant, so a raising callback
makes the exception escape (raised = true) — after the commit has happened.
Cancelling/starting the idle-watcher task (lines 77-82) is asyncio
bookkeeping with no effect on the fields modelled here. -/
def do_transition (cfg : StateMachineConfig) (obs : LampState → LampState → Bool)
    (m : Machine) (new : LampState) (now : ℚ) : Outcome :=
  let old := m.state
  if old = new then ⟨m, [], false⟩
  else if now - m.state_entered_at < cfg.min_state_duration then ⟨m, [], false⟩
  else
    let key : LampState × LampState := (old, new)
    let reject : Bool :=
      match dictGet m.last_transition_times key with
      | some last => decide (now - last < cfg.debounce_window)
      | none => false
    if reject then ⟨m, [], false⟩
    else
      let m' : Machine :=
        { state := new
          state_entered_at := now
          last_transition_times := (key, now) :: m.last_transition_times }
      ⟨m', [(old, new)], obs old new⟩

/-- The mapping dict in clawbeam handle_event (lines 89-97):
mapping.get(event.event_type, LampState.IDLE) — UNKNOWN defaults to IDLE. -/
def mapping : EventType → LampState
  | .USER_INPUT => .USER_INPUT
  | .ASSISTANT => .THINKING
  | .TOOL_CALL => .TOOL_CALL
  | .TOOL_RESULT_SUCCESS => .TOOL_SUCCESS
  | .TOOL_RESULT_ERROR => .TOOL_ERROR
  | .UNKNOWN => .IDLE

/-- StateMachine.handle_event (clawbeam/state_machine.py lines 87-100);
only event.event_type is read — there is no token-count override here. -/
def handle_event (cfg : StateMachineConfig) (obs : LampState → LampState → Bool)
    (m : Machine) (e : SMEvent) (now : ℚ) : Outcome :=
  do_transition cfg obs m (mapping e.event_type) now

/-- StateMachine.set_network_error (clawbeam/state_machine.py lines 119-121). -/
def set_network_error (cfg : StateMachineConfig) (obs : LampState → LampState → Bool)
    (m : Machine) (now : ℚ) : Outcome :=
  do_transition cfg obs m LampState.NETWORK_ERROR now

/-- StateMachine.clear_network_error (clawbeam/state_machine.py lines 123-125):
unconditionally requests a transition to IDLE, from any state. -/
def clear_network_error (cfg : StateMachineConfig) (obs : LampState → LampState → Bool)
    (m : Machine) (now : ℚ) : Outcome :=
  do_transition cfg obs m LampState.IDLE now

/-- Run a sequence of transition requests through _do_transition,
collecting committed transitions with their times. -/
def run (cfg : StateMachineConfig) (obs : LampState → LampState → Bool)
    (m : Machine) : List (LampState × ℚ) → Machine × List (LampState × LampState × ℚ)
  | [] => (m, [])
  | (t, now) :: rest =>
    let o := do_transition cfg obs m t now
    let (mf, cs) := run cfg obs o.machine rest
    (mf, (o.notified.map (fun p => (p.1, p.2, now))) ++ cs)

/-- Commit times of a given (from, to) pair within a run's commit list. -/
def timesOf (p : LampState × LampState) (cs : List (LampState × LampState × ℚ)) : List ℚ :=
  (cs.filter (fun c => decide ((c.1, c.2.1) = p))).map (fun c => c.2.2)

end CB

namespace Wled

/-! Embedding of clawbeam/wled_client.py (retry/back-off and status handling).
Network transport behaviour is an input: `out i` is what the i-th POST (or a
GET) attempt observes — either an httpx/OS exception or an HTTP status code. -/

inductive AttemptOutcome where
  | exc
  | status (code : ℕ)
deriving DecidableEq

/-- The success test applied to a response in _post and ping:
`resp.status_code == 200` (wled_client.py lines 79 and 114). -/
def isSuccess : AttemptOutcome → Bool
  | .status c => c == 200
  | .exc => false

def MAX_RETRIES : ℕ := 3

/-- Observable result of one _post call: the returned bool, the number of
send attempts made, the back-off sleeps performed (in order), and the
_healthy flag afterwards. -/
structure PostResult where
  ok : Bool
  attempts : ℕ
  waits : List ℚ
  healthy : Bool
deriving DecidableEq

/-- The `for attempt in range(1, MAX_RETRIES + 1)` loop body of
WledClient._post (wled_client.py lines 109-129): on a 200 response set
_healthy = True and return True; otherwise (non-200 status or
httpx.HTTPError/OSError) sleep BACKOFF_BASE * 2 ** (attempt - 1) unless this
was the final attempt; falling off the loop sets _healthy = False and
returns False.  The rate-limit wait before each attempt does not affect any
of these observables.  `base` is the BACKOFF_BASE attribute (1.0 by default,
mutable on the instance). -/
def post_attempts (base : ℚ) (out : ℕ → AttemptOutcome) : List ℕ → PostResult
  | [] => ⟨false, 0, [], false⟩
  | a :: rest =>
    if isSuccess (out a) then ⟨true, 1, [], true⟩
    else
      let w : List ℚ := if a < MAX_RETRIES then [base * 2 ^ (a - 1)] else []
      let r := post_attempts base out rest
      ⟨r.ok, r.attempts + 1, w ++ r.waits, r.healthy⟩

/-- WledClient._post over the attempt numbers 1..MAX_RETRIES. -/
def _post (base : ℚ) (out : ℕ → AttemptOutcome) : PostResult :=
  post_attempts base out (List.range' 1 MAX_RETRIES)

/-- WledClient.apply_state (wled_client.py lines 63-68) delegates to _post
on the /json/state URL; the JSON payload does not influence the retry logic. -/
def apply_state (base : ℚ) (out : ℕ → AttemptOutcome) : PostResult :=
  _post base out

/-- WledClient.ping (wled_client.py lines 74-84): a single GET of
/json/info; returns (result, healthy): ok = status == 200, healthy set to
ok; an httpx/OS exception sets healthy = False and returns False. -/
def ping : AttemptOutcome → Bool × Bool
  | .status c => (c == 200, c == 200)
  | .exc => (false, false)

end Wled

namespace Tail

/-! Embedding of the line tailer (session_watcher.py tail_file, lines 28-57;
the clawbeam/session_watcher.py variant, lines 17-42, performs the same
buffer/split steps).  File bytes are modelled as lists of characters. -/

/-- Locate the first newline in the buffer, returning the text before it and
the rest: the data needed by `buffer.split("\n", 1)` (and equivalently by
`buffer.find("\n")` in the clawbeam variant). -/
def find_newline : List Char → Option (List Char × List Char)
  | [] => none
  | c :: rest =>
    if c = '\n' then some ([], rest)
    else
      match find_newline rest with
      | none => none
      | some (l, r) => some (c :: l, r)

theorem find_newline_shrinks :
    ∀ (buf l r : List Char), find_newline buf = some (l, r) → r.length < buf.length := by
  intro buf
  induction buf with
  | nil => intro l r h; simp [find_newline] at h
  | cons c rest ih =>
    intro l r h
    by_cases hc : c = '\n'
    · simp [find_newline, hc] at h
      simp [← h.2]
    · simp only [find_newline, if_neg hc] at h
      cases hfr : find_newline rest with
      | none => rw [hfr] at h; simp at h
      | some pr =>
        rw [hfr] at h
        obtain ⟨l', r'⟩ := pr
        simp at h
        have := ih l' r' hfr
        simp [← h.2]
        omega

/-- The `while "\n" in buffer:` loop of tail_file: repeatedly split off the
text before the first newline and yield it; the remainder stays buffered. -/
def drain_lines (buf : List Char) : List (List Char) × List Char :=
  match h : find_newline buf with
  | none => ([], buf)
  | some (l, r) =>
    let (ls, b) := drain_lines r
    (l :: ls, b)
termination_by buf.length
decreasing_by exact find_newline_shrinks buf l r h

/-- Structural reformulation of drain_lines used for reasoning. -/
def chop : List Char → List (List Char) × List Char
  | [] => ([], [])
  | c :: rest =>
    let (ls, b) := chop rest
    if c = '\n' then ([] :: ls, b)
    else
      match ls with
      | [] => ([], c :: b)
      | l :: ls2 => ((c :: l) :: ls2, b)

/-- A file handle's view of the file: full content plus the read cursor. -/
structure FileSt where
  content : List Char
  pos : ℕ
deriving DecidableEq

/-- fh.read(): return everything from the cursor on, moving the cursor to
the end of the file. -/
def fh_read (f : FileSt) : List Char × FileSt :=
  (f.content.drop f.pos, { f with pos := f.content.length })

/-- An external writer appending bytes to the file. -/
def fs_append (f : FileSt) (s : List Char) : FileSt :=
  { f with content := f.content ++ s }

/-- Opening the file and seeking to end-of-file (fh.seek(0, os.SEEK_END)). -/
def tail_open (c0 : List Char) : FileSt :=
  { content := c0, pos := c0.length }

structure TailSt where
  file : FileSt
  buffer : List Char
deriving DecidableEq

/-- One poll iteration of the tail_file loop against the bytes `app` that
the writer appended since the previous read: read the new chunk; if it is
empty just sleep, otherwise add it to the buffer and drain complete lines. -/
def tail_step (st : TailSt) (app : List Char) : TailSt × List (List Char) :=
  let f1 := fs_append st.file app
  let (chunk, f2) := fh_read f1
  if chunk.isEmpty then (⟨f2, st.buffer⟩, [])
  else
    let (ls, buf) := drain_lines (st.buffer ++ chunk)
    (⟨f2, buf⟩, ls)

/-- The tail loop run against a schedule of appends (one entry per poll
iteration, possibly empty), collecting every yielded line in order. -/
def tail_run_from (st : TailSt) : List (List Char) → List (List Char)
  | [] => []
  | app :: rest =>
    let (st', ls) := tail_step st app
    ls ++ tail_run_from st' rest

/-- tail_file started on a file whose current content is c0: open, seek to
end, then poll; `appends` lists the bytes appended between successive polls. -/
def tail_file (c0 : List Char) (appends : List (List Char)) : List (List Char) :=
  tail_run_from ⟨tail_open c0, []⟩ appends

end Tail

/-! Model of the Python values flowing through the parsers: the results of
json.loads plus Python None.  (JSON floats are not needed by any claim and
are omitted.) -/

inductive PyVal where
  | none
  | bool (b : Bool)
  | int (n : ℤ)
  | str (s : String)
  | list (xs : List PyVal)
  | dict (kvs : List (String × PyVal))

/-- Association-list lookup standing for a Python dict subscript probe. -/
def PyVal.lookup : List (String × PyVal) → String → Option PyVal
  | [], _ => Option.none
  | (k, v) :: rest, key => if k = key then some v else PyVal.lookup rest key

/-- Python truthiness. -/
def PyVal.truthy : PyVal → Bool
  | .none => false
  | .bool b => b
  | .int n => n != 0
  | .str s => !s.isEmpty
  | .list xs => !xs.isEmpty
  | .dict kvs => !kvs.isEmpty

/-- Python value equality against a string literal (v == "..." is False for
values of any other type). -/
def PyVal.eqStr : PyVal → String → Bool
  | .str t, s => t == s
  | _, _ => false

/-- Exceptions the embedded parser code can raise. -/
inductive PyExc where
  | attributeError
deriving DecidableEq

/-- v.get(key, default): Python raises AttributeError when the receiver is
not a dict (the json.loads result need not be one). -/
def pyGetD (v : PyVal) (key : String) (default : PyVal) : Except PyExc PyVal :=
  match v with
  | .dict kvs => .ok ((PyVal.lookup kvs key).getD default)
  | _ => .error .attributeError

/-- v.get(key) with no default: missing keys give Python None. -/
def pyGet (v : PyVal) (key : String) : Except PyExc PyVal :=
  pyGetD v key .none

/-- Model of Python str.strip(): drop whitespace from both ends (computed
on the character list so that concrete instances evaluate). -/
def pyStrip (s : String) : String :=
  ⟨((s.data.dropWhile Char.isWhitespace).reverse.dropWhile Char.isWhitespace).reverse⟩

/-- Model of Python falsiness of a string (empty string). -/
def pyStrEmpty (s : String) : Bool :=
  s.data.isEmpty

/-- Model of Python str.lower() on one character (ASCII case folding, which
covers every string the branch conditions compare against). -/
def pyCharLower (c : Char) : Char :=
  if 65 ≤ c.toNat ∧ c.toNat ≤ 90 then Char.ofNat (c.toNat + 32) else c

/-- Model of Python str.lower(). -/
def pyLowerStr (s : String) : String :=
  ⟨s.data.map pyCharLower⟩

/-- v.lower(): AttributeError unless the receiver is a string. -/
def pyLower (v : PyVal) : Except PyExc String :=
  match v with
  | .str s => .ok (pyLowerStr s)
  | _ => .error .attributeError

/-- Does the second list start with the first? -/
def startsWithList : List Char → List Char → Bool
  | [], _ => true
  | _ :: _, [] => false
  | p :: ps, c :: cs => p == c && startsWithList ps cs

/-- Does the list contain the first list as a contiguous run? -/
def containsList (pat : List Char) : List Char → Bool
  | [] => startsWithList pat []
  | c :: cs => startsWithList pat (c :: cs) || containsList pat cs

/-- Model of Python `pat in hay` substring test. -/
def strContains (hay pat : String) : Bool :=
  containsList pat.data hay.data

/-- Model of Python hay.startswith(pat). -/
def strStartsWith (hay pat : String) : Bool :=
  startsWithList pat.data hay.data

/-- Python int(v) with its exceptions caught by the caller: ints pass
through, bools coerce, strings parse (ValueError otherwise), anything else
is a TypeError; both exception cases surface as Option.none because every
call site catches them. -/
def pyToInt : PyVal → Option ℤ
  | .int n => some n
  | .bool b => some (if b then 1 else 0)
  | .str s => (pyStrip s).toInt?
  | _ => Option.none

namespace P1

/-! Embedding of parser.py (package-level variant). -/

/-- Event dataclass (parser.py lines 30-39).  The id field has
default_factory uuid4().hex[:12] and parse_line never passes an id, so the
id is always the freshly generated value (the `fresh` parameter below).
token_count is stored exactly as found in the JSON (annotated Optional[int]
but not validated). -/
structure Event where
  id : String
  event_type : EventType
  severity : Severity
  timestamp : ℤ
  raw_payload : PyVal
  token_count : PyVal

/-- Embedding of _detect_error (parser.py lines 42-49): look for any of the error
keywords in the lowered message content; non-string content is not an error. -/
def _detect_error (payload : PyVal) : Except PyExc Bool := do
  let msg ← pyGetD payload "message" (.dict [])
  let content ← pyGetD msg "content" (.str "")
  match content with
  | .str s =>
    let lowered := pyLowerStr s
    pure (strContains lowered "error" || strContains lowered "exception" ||
      strContains lowered "traceback" || strContains lowered "failed")
  | _ => pure false

/-- parse_line (parser.py lines 52-109).  `jsonDecode` models json.loads
(Option.none = json.JSONDecodeError, which is caught); `fromIsoStr` models
datetime.fromisoformat(str(v)) with its ValueError/TypeError caught
(Option.none); `nowT` is the current UTC time; `fresh` is the uuid the Event
default factory would generate. -/
def parse_line (jsonDecode : String → Option PyVal) (fresh : String)
    (fromIsoStr : PyVal → Option ℤ) (nowT : ℤ) (line : String) :
    Except PyExc (Option Event) := do
  let l := pyStrip line
  if pyStrEmpty l then return Option.none
  match jsonDecode l with
  | Option.none => return Option.none
  | some data => do
    let msg ← pyGetD data "message" (.dict [])
    let roleV ← pyGetD msg "role" (.str "")
    let role ← pyLower roleV
    let rtV ← pyGetD data "type" (.str "")
    let record_type ← pyLower rtV
    let pair ←
      if role = "user" ∨ record_type = "user" then
        pure (EventType.USER_INPUT, Severity.INFO)
      else if record_type = "tool_call" ∨ record_type = "toolcall" ∨ role = "toolcall" then
        pure (EventType.TOOL_CALL, Severity.INFO)
      else if record_type = "tool_result" ∨ record_type = "toolresult" ∨ role = "toolresult" then do
        let e ← _detect_error data
        if e then pure (EventType.TOOL_RESULT_ERROR, Severity.ERROR)
        else pure (EventType.TOOL_RESULT_SUCCESS, Severity.INFO)
      else if role = "assistant" ∨ record_type = "assistant" then
        pure (EventType.ASSISTANT, Severity.INFO)
      else
        pure (EventType.UNKNOWN, Severity.INFO)
    let usage ← pyGetD data "usage" (.dict [])
    let token_count : PyVal :=
      match usage with
      | .dict kvs =>
        let a := (PyVal.lookup kvs "total_tokens").getD PyVal.none
        let b := (PyVal.lookup kvs "totalTokens").getD PyVal.none
        if a.truthy then a else b
      | _ => PyVal.none
    let tsA ← pyGet data "timestamp"
    let tsB ← pyGet data "ts"
    let ts_str := if tsA.truthy then tsA else tsB
    let ts : ℤ :=
      if ts_str.truthy then (fromIsoStr ts_str).getD nowT
      else nowT
    return some
      { id := fresh
        event_type := pair.1
        severity := pair.2
        timestamp := ts
        raw_payload := data
        token_count := token_count }

end P1

namespace P2

/-! Embedding of clawbeam/parser.py. -/

/-- Event dataclass (clawbeam/parser.py lines 30-37).  The id field is
assigned `obj.get("id") or obj.get("timestamp") or None`, so it holds
whatever Python value those fields carry — possibly None. -/
structure Event where
  id : PyVal
  event_type : EventType
  message : PyVal
  severity : Severity
  token_count : Option ℤ
  timestamp : ℤ

/-- Embedding of _map_type (clawbeam/parser.py lines 40-57): the error heuristic in this
variant is content.lower().startswith("error") on string content. -/
def _map_type (type_str : PyVal) (message : PyVal) : Except PyExc (EventType × Severity) :=
  if ¬ type_str.truthy then .ok (.UNKNOWN, .INFO)
  else if type_str.eqStr "user" then .ok (.USER_INPUT, .INFO)
  else if type_str.eqStr "assistant" then .ok (.ASSISTANT, .INFO)
  else if type_str.eqStr "tool_call" then .ok (.TOOL_CALL, .INFO)
  else if type_str.eqStr "tool_result" then do
    let content ← pyGetD (if message.truthy then message else .dict []) "content" (.str "")
    match content with
    | .str s =>
      if strStartsWith (pyLowerStr s) "error" then .ok (.TOOL_RESULT_ERROR, .ERROR)
      else .ok (.TOOL_RESULT_SUCCESS, .INFO)
    | _ => .ok (.TOOL_RESULT_SUCCESS, .INFO)
  else .ok (.UNKNOWN, .INFO)

/-- parse_line (clawbeam/parser.py lines 60-104).  `jsonDecode` models
json.loads; `fromIso` models datetime.fromisoformat on a string argument
(Option.none when it raises — the call site catches every exception,
including the TypeError a non-string argument raises); `nowT` is the
current UTC time. -/
def parse_line (jsonDecode : String → Option PyVal) (fromIso : String → Option ℤ)
    (nowT : ℤ) (line : String) : Except PyExc (Option Event) := do
  if pyStrEmpty line ∨ pyStrEmpty (pyStrip line) then return Option.none
  match jsonDecode line with
  | Option.none => return Option.none
  | some obj => do
    let type_str ← pyGet obj "type"
    let message0 ← pyGetD obj "message" (.dict [])
    let message := if message0.truthy then message0 else PyVal.dict []
    let usage0 ← pyGet obj "usage"
    let usage := if usage0.truthy then usage0 else PyVal.dict []
    let pair ← _map_type type_str message
    let tsV ← pyGet obj "timestamp"
    let timestamp : ℤ :=
      if tsV.truthy then
        match tsV with
        | .str s => (fromIso s).getD nowT
        | _ => nowT
      else nowT
    let token_count : Option ℤ :=
      match usage with
      | .dict kvs =>
        match PyVal.lookup kvs "total_tokens" with
        | Option.none => Option.none
        | some v => pyToInt v
      | _ => Option.none
    let idV ← pyGet obj "id"
    let tsV2 ← pyGet obj "timestamp"
    let evt_id := if idV.truthy then idV else if tsV2.truthy then tsV2 else PyVal.none
    return some
      { id := evt_id
        event_type := pair.1
        message := message
        severity := pair.2
        token_count := token_count
        timestamp := timestamp }

end P2

/-! Concrete fixtures used by witnesses and counterexamples. -/

/-- Zero debounce window and zero minimum state duration. -/
def cfgZ : StateMachineConfig := ⟨0, 30, 0⟩

/-- Debounce window of 10 seconds, zero minimum state duration. -/
def cfgD : StateMachineConfig := ⟨0, 30, 10⟩

/-- An observer callback that never raises. -/
def obsOk : LampState → LampState → Bool := fun _ _ => false

/-- An observer callback that always raises. -/
def obsRaise : LampState → LampState → Bool := fun _ _ => true

/-- Freshly constructed package-variant machine (state IDLE at time 0). -/
def m1Idle : SM1.Machine := ⟨.IDLE, 0, 0, none, 0⟩

/-- Freshly constructed clawbeam-variant machine (state IDLE at time 0). -/
def mbIdle : CB.Machine := ⟨.IDLE, 0, []⟩

/-- Transport behaviour: the first two attempts hit a transient
connection error, the third returns HTTP 200. -/
def wledTwoFailsThenOk : ℕ → Wled.AttemptOutcome :=
  fun i => if i ≤ 2 then .exc else .status 200

/-- Transport behaviour: every attempt fails with a connection error. -/
def wledAllFail : ℕ → Wled.AttemptOutcome := fun _ => .exc

/-- A json.loads model that decodes the line "5" to the integer 5
(exactly what Python's json.loads does with it). -/
def dec5 : String → Option PyVal :=
  fun s => if s = "5" then some (.int 5) else Option.none

/-- A fromisoformat model that always fails to parse. -/
def iso0 : PyVal → Option ℤ := fun _ => Option.none

/-- A string-argument fromisoformat model that always fails to parse. -/
def isoS : String → Option ℤ := fun _ => Option.none

/-- A user record carrying neither an id field nor a timestamp field. -/
def objU : PyVal := .dict [("type", .str "user"), ("message", .dict [("role", .str "user")])]

/-- A json.loads model decoding the line "u" to objU. -/
def decU : String → Option PyVal :=
  fun s => if s = "u" then some objU else Option.none

/-! Claim theorems. -/

/-- C5: apply_state makes at most 3 send attempts; after each failed
attempt except the final one it waits base * 2^(attempt-1) before retrying;
it returns success as soon as one attempt succeeds (with exactly 2
transient failures followed by a success it returns success after exactly 3
attempts); and exhausting all 3 attempts sets the healthy flag to false and
returns failure to the caller. -/
theorem c5_apply_state_retry_backoff (base : ℚ) (out : ℕ → Wled.AttemptOutcome) :
    (Wled.apply_state base out).attempts ≤ 3 ∧
    (Wled.isSuccess (out 1) = true →
      Wled.apply_state base out = ⟨true, 1, [], true⟩) ∧
    (Wled.isSuccess (out 1) = false → Wled.isSuccess (out 2) = true →
      Wled.apply_state base out = ⟨true, 2, [base * 2 ^ 0], true⟩) ∧
    (Wled.isSuccess (out 1) = false → Wled.isSuccess (out 2) = false →
      Wled.isSuccess (out 3) = true →
      Wled.apply_state base out = ⟨true, 3, [base * 2 ^ 0, base * 2 ^ 1], true⟩) ∧
    (Wled.isSuccess (out 1) = false → Wled.isSuccess (out 2) = false →
      Wled.isSuccess (out 3) = false →
      Wled.apply_state base out = ⟨false, 3, [base * 2 ^ 0, base * 2 ^ 1], false⟩) := by
  have hr : List.range' 1 Wled.MAX_RETRIES = [1, 2, 3] := rfl
  unfold Wled.apply_state Wled._post
  rw [hr]
  by_cases h1 : Wled.isSuccess (out 1) <;>
    by_cases h2 : Wled.isSuccess (out 2) <;>
      by_cases h3 : Wled.isSuccess (out 3) <;>
        simp [Wled.post_attempts, h1, h2, h3, Wled.MAX_RETRIES]

/-- C5 witness: with two simulated transient failures then a success,
apply_state succeeds after exactly 3 attempts with back-off waits of 1 and
2 seconds; with failures on every attempt it returns failure with the
healthy flag false. -/
theorem c5_apply_state_retry_backoff_witness :
    Wled.apply_state 1 wledTwoFailsThenOk = ⟨true, 3, [1 * 2 ^ 0, 1 * 2 ^ 1], true⟩ ∧
    Wled.apply_state 1 wledAllFail = ⟨false, 3, [1 * 2 ^ 0, 1 * 2 ^ 1], false⟩ :=
  ⟨(c5_apply_state_retry_backoff 1 wledTwoFailsThenOk).2.2.2.1 rfl rfl rfl,
   (c5_apply_state_retry_backoff 1 wledAllFail).2.2.2.2 rfl rfl rfl⟩

/-- C6 (amended): a POST to the state endpoint is treated as successful
exactly when the HTTP status is 200 (not for other 2xx statuses), and the
GET health probe of the info endpoint likewise succeeds exactly on 200. -/
theorem c6_success_is_exactly_200 (base : ℚ) (c : ℕ) :
    (Wled._post base (fun _ => .status c)).ok = (c == 200) ∧
    Wled.ping (.status c) = (c == 200, c == 200) ∧
    Wled.ping .exc = (false, false) := by
  refine ⟨?_, rfl, rfl⟩
  have hr : List.range' 1 Wled.MAX_RETRIES = [1, 2, 3] := rfl
  unfold Wled._post
  rw [hr]
  by_cases h : (c == 200) = true <;>
    simp [Wled.post_attempts, Wled.isSuccess, h, Wled.MAX_RETRIES]

/-- C6 counterexample: HTTP 204 is a 2xx status, yet the client treats it
as a failure both for the POST path and for the health probe. -/
theorem c6_2xx_not_success_cex :
    (200 ≤ 204 ∧ 204 < 300) ∧
    (Wled._post 1 (fun _ => .status 204)).ok = false ∧
    (Wled.ping (.status 204)).1 = false := by
  refine ⟨⟨by norm_num, by norm_num⟩, ?_, rfl⟩
  have h := (c6_success_is_exactly_200 1 204).1
  simpa using h

/-- C1 (amended): in state_machine.py an UNKNOWN event (whose token_count
does not trigger the high-token override) attempts no transition — the lamp
state is unchanged and the observer is not invoked (only last_activity is
recorded); in clawbeam/state_machine.py, however, UNKNOWN is mapped to IDLE
by the handler's default, so from IDLE it is a no-op but from any other
state (guards permitting) it commits a transition to IDLE and notifies the
observer. -/
theorem c1_unknown_event_amended :
    (∀ (cfg : StateMachineConfig) (obs : LampState → LampState → Bool)
        (m : SM1.Machine) (tc : Option ℤ) (now : ℚ),
      SM1.token_override tc = false →
      SM1.handle_event cfg obs m ⟨.UNKNOWN, tc⟩ now = ⟨{ m with last_activity := now }, [], false⟩) ∧
    (∀ (cfg : StateMachineConfig) (obs : LampState → LampState → Bool)
        (m : CB.Machine) (tc : Option ℤ) (now : ℚ),
      m.state = .IDLE →
      CB.handle_event cfg obs m ⟨.UNKNOWN, tc⟩ now = ⟨m, [], false⟩) ∧
    (∀ (cfg : StateMachineConfig) (obs : LampState → LampState → Bool)
        (m : CB.Machine) (tc : Option ℤ) (now : ℚ),
      m.state ≠ .IDLE →
      ¬ (now - m.state_entered_at < cfg.min_state_duration) →
      (∀ t0, CB.dictGet m.last_transition_times (m.state, .IDLE) = some t0 →
        ¬ (now - t0 < cfg.debounce_window)) →
      CB.handle_event cfg obs m ⟨.UNKNOWN, tc⟩ now =
        ⟨⟨.IDLE, now, ((m.state, .IDLE), now) :: m.last_transition_times⟩,
          [(m.state, .IDLE)], obs m.state .IDLE⟩) := by
  refine ⟨?_, ?_, ?_⟩
  · intro cfg obs m tc now h
    simp [SM1.handle_event, SM1.EVENT_TO_STATE, h]
  · intro cfg obs m tc now h
    simp [CB.handle_event, CB.mapping, CB.do_transition, h]
  · intro cfg obs m tc now h1 h2 h3
    simp only [CB.handle_event, CB.mapping, CB.do_transition]
    rw [if_neg h1, if_neg h2]
    cases hd : CB.dictGet m.last_transition_times (m.state, .IDLE) with
    | none => simp
    | some t0 =>
      have := h3 t0 hd
      simp [this]

/-- C1 witness: a fresh package-variant machine given an UNKNOWN event with
no token count stays in IDLE with no notification, and a fresh clawbeam
machine does too. -/
theorem c1_unknown_event_witness :
    SM1.handle_event cfgZ obsOk m1Idle ⟨.UNKNOWN, none⟩ 1 =
      ⟨{ m1Idle with last_activity := 1 }, [], false⟩ ∧
    CB.handle_event cfgZ obsOk mbIdle ⟨.UNKNOWN, none⟩ 1 = ⟨mbIdle, [], false⟩ :=
  ⟨c1_unknown_event_amended.1 cfgZ obsOk m1Idle none 1 rfl,
   c1_unknown_event_amended.2.1 cfgZ obsOk mbIdle none 1 rfl⟩

/-- C1 counterexample: in the clawbeam variant, an UNKNOWN event received
while the machine is in USER_INPUT (zero debounce/min-duration) commits a
transition to IDLE and invokes the observer — the claim's "no transition
attempt" fails there. -/
theorem c1_unknown_event_cex :
    (CB.handle_event cfgZ obsOk ⟨.USER_INPUT, 0, []⟩ ⟨.UNKNOWN, none⟩ 1).machine.state = .IDLE ∧
    (CB.handle_event cfgZ obsOk ⟨.USER_INPUT, 0, []⟩ ⟨.UNKNOWN, none⟩ 1).notified =
      [(.USER_INPUT, .IDLE)] := by
  norm_num [CB.handle_event, CB.mapping, CB.do_transition, CB.dictGet, cfgZ, obsOk]
  decide

/-- C2 (amended): in state_machine.py any event carrying token_count ≥ 4000
has its target forced to HIGH_TOKENS regardless of kind, and the
USER_INPUT-then-ASSISTANT(5000) scenario under zero debounce/min-duration
yields IDLE→USER_INPUT then USER_INPUT→HIGH_TOKENS; the clawbeam variant
has no token override at all (its handler ignores token_count), so the same
scenario yields USER_INPUT→THINKING there. -/
theorem c2_high_token_override_amended :
    (∀ (cfg : StateMachineConfig) (obs : LampState → LampState → Bool)
        (m : SM1.Machine) (et : EventType) (n : ℤ) (now : ℚ),
      (4000 : ℤ) ≤ n →
      SM1.handle_event cfg obs m ⟨et, some n⟩ now =
        SM1.try_transition cfg obs { m with last_activity := now } .HIGH_TOKENS now) ∧
    ((SM1.handle_event cfgZ obsOk m1Idle ⟨.USER_INPUT, none⟩ 1).notified =
        [(.IDLE, .USER_INPUT)] ∧
      (SM1.handle_event cfgZ obsOk
          (SM1.handle_event cfgZ obsOk m1Idle ⟨.USER_INPUT, none⟩ 1).machine
          ⟨.ASSISTANT, some 5000⟩ 2).notified = [(.USER_INPUT, .HIGH_TOKENS)]) ∧
    (∀ (cfg : StateMachineConfig) (obs : LampState → LampState → Bool)
        (m : CB.Machine) (et : EventType) (tc tc' : Option ℤ) (now : ℚ),
      CB.handle_event cfg obs m ⟨et, tc⟩ now = CB.handle_event cfg obs m ⟨et, tc'⟩ now) := by
  refine ⟨?_, ⟨?_, ?_⟩, fun _ _ _ _ _ _ _ => rfl⟩
  · intro cfg obs m et n now h
    have hn : n ≠ 0 := by omega
    have hov : SM1.token_override (some n) = true := by
      simp [SM1.token_override, SM1.HIGH_TOKEN_THRESHOLD, hn, h]
    simp [SM1.handle_event, hov]
  · norm_num [SM1.handle_event, SM1.try_transition, SM1.EVENT_TO_STATE, SM1.token_override,
      cfgZ, obsOk, m1Idle]
    decide
  · norm_num [SM1.handle_event, SM1.try_transition, SM1.EVENT_TO_STATE, SM1.token_override,
      SM1.HIGH_TOKEN_THRESHOLD, cfgZ, obsOk, m1Idle]
    decide

/-- C2 witness: the override theorem applied to the scenario's second
event (ASSISTANT with token_count 5000 ≥ 4000). -/
theorem c2_high_token_override_witness :
    SM1.handle_event cfgZ obsOk m1Idle ⟨.ASSISTANT, some 5000⟩ 2 =
      SM1.try_transition cfgZ obsOk { m1Idle with last_activity := 2 } .HIGH_TOKENS 2 :=
  c2_high_token_override_amended.1 cfgZ obsOk m1Idle .ASSISTANT 5000 2 (by norm_num)

/-- C2 counterexample: in the clawbeam variant the same scenario's second
transition is USER_INPUT→THINKING, not USER_INPUT→HIGH_TOKENS. -/
theorem c2_high_token_override_cex :
    (CB.handle_event cfgZ obsOk
        (CB.handle_event cfgZ obsOk mbIdle ⟨.USER_INPUT, none⟩ 1).machine
        ⟨.ASSISTANT, some 5000⟩ 2).notified = [(.USER_INPUT, .THINKING)] ∧
    (CB.handle_event cfgZ obsOk
        (CB.handle_event cfgZ obsOk mbIdle ⟨.USER_INPUT, none⟩ 1).machine
        ⟨.ASSISTANT, some 5000⟩ 2).machine.state = .THINKING ∧
    LampState.THINKING ≠ LampState.HIGH_TOKENS := by
  norm_num [CB.handle_event, CB.mapping, CB.do_transition, CB.dictGet, cfgZ, obsOk, mbIdle]
  decide

/-- Helper: _try_transition commits when all guards pass, and the result is
the committed machine plus one notification — independent of the observer. -/
theorem SM1.try_transition_commit (cfg : StateMachineConfig) (obs : LampState → LampState → Bool)
    (m : SM1.Machine) (t : LampState) (now : ℚ)
    (h1 : ¬ (now - m.state_entered_at < cfg.min_state_duration))
    (h2 : ¬ (some (m.state, t) = m.last_transition_key ∧
      now - m.last_transition_time < cfg.debounce_window))
    (h3 : t ≠ m.state) :
    SM1.try_transition cfg obs m t now =
      ⟨⟨t, now, m.last_activity, some (m.state, t), now⟩, [(m.state, t)], false⟩ := by
  simp [SM1.try_transition, h1, h2, h3]

/-- Helper: _do_transition commits when all guards pass; the commit is in
the result even when the observer raises, and the raised flag is exactly
the observer's behaviour. -/
theorem CB.do_transition_commit (cfg : StateMachineConfig) (obs : LampState → LampState → Bool)
    (m : CB.Machine) (new : LampState) (now : ℚ)
    (h0 : m.state ≠ new)
    (h1 : ¬ (now - m.state_entered_at < cfg.min_state_duration))
    (h2 : ∀ t0, CB.dictGet m.last_transition_times (m.state, new) = some t0 →
      ¬ (now - t0 < cfg.debounce_window)) :
    CB.do_transition cfg obs m new now =
      ⟨⟨new, now, ((m.state, new), now) :: m.last_transition_times⟩,
        [(m.state, new)], obs m.state new⟩ := by
  simp only [CB.do_transition]
  rw [if_neg h0, if_neg h1]
  cases hd : CB.dictGet m.last_transition_times (m.state, new) with
  | none => simp
  | some t0 => simp [h2 t0 hd]

/-- Helper: _do_transition rejects a request whose (from, to) pair last
fired within the debounce window. -/
theorem CB.do_transition_reject_debounce (cfg : StateMachineConfig)
    (obs : LampState → LampState → Bool) (m : CB.Machine) (new : LampState) (now t0 : ℚ)
    (hd : CB.dictGet m.last_transition_times (m.state, new) = some t0)
    (hw : now - t0 < cfg.debounce_window) :
    CB.do_transition cfg obs m new now = ⟨m, [], false⟩ := by
  simp only [CB.do_transition]
  by_cases h0 : m.state = new
  · rw [if_pos h0]
  · rw [if_neg h0]
    by_cases h1 : now - m.state_entered_at < cfg.min_state_duration
    · rw [if_pos h1]
    · rw [if_neg h1, hd]
      simp [hw]

/-- Helper: every _do_transition call either leaves the machine untouched
with no notification, or commits — and a commit of a pair that has a
last-fired record is at least a debounce window later. -/
theorem CB.do_transition_cases (cfg : StateMachineConfig) (obs : LampState → LampState → Bool)
    (m : CB.Machine) (new : LampState) (now : ℚ) :
    CB.do_transition cfg obs m new now = ⟨m, [], false⟩ ∨
    ((∀ t0, CB.dictGet m.last_transition_times (m.state, new) = some t0 →
        cfg.debounce_window ≤ now - t0) ∧
      CB.do_transition cfg obs m new now =
        ⟨⟨new, now, ((m.state, new), now) :: m.last_transition_times⟩,
          [(m.state, new)], obs m.state new⟩) := by
  by_cases h0 : m.state = new
  · left; simp [CB.do_transition, h0]
  · by_cases h1 : now - m.state_entered_at < cfg.min_state_duration
    · left; simp [CB.do_transition, h0, h1]
    · cases hd : CB.dictGet m.last_transition_times (m.state, new) with
      | some t0 =>
        by_cases hw : now - t0 < cfg.debounce_window
        · left; exact CB.do_transition_reject_debounce cfg obs m new now t0 hd hw
        · right
          refine ⟨?_, ?_⟩
          · intro t1 hd1
            cases hd1
            exact le_of_not_lt hw
          · exact CB.do_transition_commit cfg obs m new now h0 h1
              (fun t1 hd1 => by
                rw [hd] at hd1
                cases hd1
                exact hw)
      | none =>
        right
        refine ⟨?_, ?_⟩
        · intro t1 hd1
          exact Option.noConfusion hd1
        · exact CB.do_transition_commit cfg obs m new now h0 h1
            (fun t1 hd1 => by
              rw [hd] at hd1
              exact Option.noConfusion hd1)

/-- C3 (amended): in state_machine.py, clear_network_error is a no-op (no
state change, no observer call) from every state other than NETWORK_ERROR,
and from NETWORK_ERROR it transitions to IDLE (guards permitting); in
clawbeam/state_machine.py it requests a transition to IDLE from any state,
so from a non-IDLE state with passing guards it commits that transition and
notifies the observer. -/
theorem c3_clear_network_error_amended :
    (∀ (cfg : StateMachineConfig) (obs : LampState → LampState → Bool)
        (m : SM1.Machine) (now : ℚ), m.state ≠ .NETWORK_ERROR →
      SM1.clear_network_error cfg obs m now = ⟨m, [], false⟩) ∧
    (∀ (cfg : StateMachineConfig) (obs : LampState → LampState → Bool)
        (m : SM1.Machine) (now : ℚ), m.state = .NETWORK_ERROR →
      ¬ (now - m.state_entered_at < cfg.min_state_duration) →
      ¬ (some (m.state, LampState.IDLE) = m.last_transition_key ∧
          now - m.last_transition_time < cfg.debounce_window) →
      (SM1.clear_network_error cfg obs m now).machine.state = .IDLE ∧
      (SM1.clear_network_error cfg obs m now).notified = [(.NETWORK_ERROR, .IDLE)]) ∧
    (∀ (cfg : StateMachineConfig) (obs : LampState → LampState → Bool)
        (m : CB.Machine) (now : ℚ), m.state ≠ .IDLE →
      ¬ (now - m.state_entered_at < cfg.min_state_duration) →
      (∀ t0, CB.dictGet m.last_transition_times (m.state, .IDLE) = some t0 →
        ¬ (now - t0 < cfg.debounce_window)) →
      (CB.clear_network_error cfg obs m now).machine.state = .IDLE ∧
      (CB.clear_network_error cfg obs m now).notified = [(m.state, .IDLE)]) := by
  refine ⟨?_, ?_, ?_⟩
  · intro cfg obs m now h
    simp [SM1.clear_network_error, h]
  · intro cfg obs m now h h1 h2
    have h3 : LampState.IDLE ≠ m.state := by rw [h]; decide
    rw [SM1.clear_network_error, if_pos h, SM1.try_transition_commit cfg obs m .IDLE now h1 h2 h3]
    rw [h]
    exact ⟨rfl, rfl⟩
  · intro cfg obs m now h0 h1 h2
    have hne : m.state ≠ .IDLE := h0
    rw [CB.clear_network_error, CB.do_transition_commit cfg obs m .IDLE now hne h1 h2]
    exact ⟨rfl, rfl⟩

/-- C3 witness: from THINKING the package-variant clear_network_error is a
no-op; from NETWORK_ERROR (zero guards) it recovers to IDLE. -/
theorem c3_clear_network_error_witness :
    SM1.clear_network_error cfgZ obsOk ⟨.THINKING, 0, 0, none, 0⟩ 1 =
      ⟨⟨.THINKING, 0, 0, none, 0⟩, [], false⟩ ∧
    (SM1.clear_network_error cfgZ obsOk ⟨.NETWORK_ERROR, 0, 0, none, 0⟩ 1).machine.state = .IDLE ∧
    (SM1.clear_network_error cfgZ obsOk ⟨.NETWORK_ERROR, 0, 0, none, 0⟩ 1).notified =
      [(.NETWORK_ERROR, .IDLE)] :=
  ⟨c3_clear_network_error_amended.1 cfgZ obsOk ⟨.THINKING, 0, 0, none, 0⟩ 1 (by decide),
   c3_clear_network_error_amended.2.1 cfgZ obsOk ⟨.NETWORK_ERROR, 0, 0, none, 0⟩ 1 rfl
     (by norm_num [cfgZ]) (by simp)⟩

/-- C3 counterexample: in the clawbeam variant, clear_network_error called
while the machine is in THINKING (not NETWORK_ERROR) is not a no-op: it
commits THINKING→IDLE and notifies the observer. -/
theorem c3_clear_network_error_cex :
    (CB.clear_network_error cfgZ obsOk ⟨.THINKING, 0, []⟩ 1).machine.state = .IDLE ∧
    (CB.clear_network_error cfgZ obsOk ⟨.THINKING, 0, []⟩ 1).notified = [(.THINKING, .IDLE)] ∧
    LampState.THINKING ≠ LampState.NETWORK_ERROR := by
  norm_num [CB.clear_network_error, CB.do_transition, CB.dictGet, cfgZ, obsOk]
  decide

/-- C4 (amended): in state_machine.py the transition commit (state update,
entry-timestamp reset, debounce firing record) is unconditional, precedes
the observer invocation, and the outcome is entirely independent of the
observer — an observer exception is caught, never rolls back the commit and
never escapes; in clawbeam/state_machine.py the commit equally precedes the
observer and is never rolled back, but there is no try/except, so the
observer's exception escapes from the entry point. -/
theorem c4_commit_precedes_observer_amended :
    (∀ (cfg : StateMachineConfig) (obs obs' : LampState → LampState → Bool)
        (m : SM1.Machine) (t : LampState) (now : ℚ),
      SM1.try_transition cfg obs m t now = SM1.try_transition cfg obs' m t now) ∧
    (∀ (cfg : StateMachineConfig) (obs : LampState → LampState → Bool)
        (m : SM1.Machine) (t : LampState) (now : ℚ),
      (SM1.try_transition cfg obs m t now).raised = false) ∧
    (∀ (cfg : StateMachineConfig) (obs : LampState → LampState → Bool)
        (m : SM1.Machine) (t : LampState) (now : ℚ),
      ¬ (now - m.state_entered_at < cfg.min_state_duration) →
      ¬ (some (m.state, t) = m.last_transition_key ∧
          now - m.last_transition_time < cfg.debounce_window) →
      t ≠ m.state →
      SM1.try_transition cfg obs m t now =
        ⟨⟨t, now, m.last_activity, some (m.state, t), now⟩, [(m.state, t)], false⟩) ∧
    (∀ (cfg : StateMachineConfig) (obs : LampState → LampState → Bool)
        (m : CB.Machine) (t : LampState) (now : ℚ),
      m.state ≠ t →
      ¬ (now - m.state_entered_at < cfg.min_state_duration) →
      (∀ t0, CB.dictGet m.last_transition_times (m.state, t) = some t0 →
        ¬ (now - t0 < cfg.debounce_window)) →
      CB.do_transition cfg obs m t now =
        ⟨⟨t, now, ((m.state, t), now) :: m.last_transition_times⟩,
          [(m.state, t)], obs m.state t⟩) := by
  refine ⟨fun _ _ _ _ _ _ => rfl, ?_, SM1.try_transition_commit, CB.do_transition_commit⟩
  intro cfg obs m t now
  simp only [SM1.try_transition]
  split_ifs <;> rfl

/-- C4 witness: a committing transition in each variant, under an observer
that raises: the package variant still reports raised = false; the clawbeam
variant's commit is present with raised = true. -/
theorem c4_commit_precedes_observer_witness :
    SM1.try_transition cfgZ obsRaise m1Idle .USER_INPUT 1 =
      ⟨⟨.USER_INPUT, 1, 0, some (.IDLE, .USER_INPUT), 1⟩, [(.IDLE, .USER_INPUT)], false⟩ ∧
    CB.do_transition cfgZ obsRaise mbIdle .USER_INPUT 1 =
      ⟨⟨.USER_INPUT, 1, [((.IDLE, .USER_INPUT), 1)]⟩, [(.IDLE, .USER_INPUT)], true⟩ :=
  ⟨c4_commit_precedes_observer_amended.2.2.1 cfgZ obsRaise m1Idle .USER_INPUT 1
     (by norm_num [cfgZ, m1Idle]) (by simp [m1Idle]) (by decide),
   c4_commit_precedes_observer_amended.2.2.2 cfgZ obsRaise mbIdle .USER_INPUT 1
     (by decide) (by norm_num [cfgZ, mbIdle]) (fun t0 h => by simp [mbIdle, CB.dictGet] at h)⟩

/-- C4 counterexample: in the clawbeam variant an observer exception
escapes handle_event (raised = true), violating the claim that it never
propagates out of the entry point — though the commit itself is retained. -/
theorem c4_commit_precedes_observer_cex :
    (CB.handle_event cfgZ obsRaise mbIdle ⟨.USER_INPUT, none⟩ 1).raised = true ∧
    (CB.handle_event cfgZ obsRaise mbIdle ⟨.USER_INPUT, none⟩ 1).machine.state = .USER_INPUT ∧
    (CB.handle_event cfgZ obsRaise mbIdle ⟨.USER_INPUT, none⟩ 1).notified =
      [(.IDLE, .USER_INPUT)] := by
  norm_num [CB.handle_event, CB.mapping, CB.do_transition, CB.dictGet, cfgZ, obsRaise, mbIdle]
  decide

/-- Helper: commit times of a pair within a cons of commit records. -/
theorem CB.timesOf_cons (p : LampState × LampState) (a b : LampState) (tq : ℚ)
    (cs : List (LampState × LampState × ℚ)) :
    CB.timesOf p ((a, b, tq) :: cs) =
      if (a, b) = p then tq :: CB.timesOf p cs else CB.timesOf p cs := by
  by_cases h : (a, b) = p <;> simp [CB.timesOf, List.filter_cons, h]

/-- Helper: in any request sequence run through the clawbeam machine, for
every (from, to) pair, consecutive commit times of that pair (seeded by the
pair's last-fired record, if any) are at least one debounce window apart —
regardless of which other pairs commit in between. -/
theorem CB.run_debounce_chain (cfg : StateMachineConfig) (obs : LampState → LampState → Bool)
    (p : LampState × LampState) :
    ∀ (reqs : List (LampState × ℚ)) (m : CB.Machine),
      List.Chain' (fun a b => cfg.debounce_window ≤ b - a)
        ((CB.dictGet m.last_transition_times p).toList ++
          CB.timesOf p (CB.run cfg obs m reqs).2) := by
  intro reqs
  induction reqs with
  | nil =>
    intro m
    simp only [CB.run, CB.timesOf, List.filter_nil, List.map_nil, List.append_nil]
    cases CB.dictGet m.last_transition_times p with
    | none => simp
    | some t0 => simp
  | cons req rest ih =>
    intro m
    obtain ⟨t, now⟩ := req
    rcases CB.do_transition_cases cfg obs m t now with hcase | ⟨hguard, hcommit⟩
    · rcases hr : CB.run cfg obs m rest with ⟨mf, cs⟩
      have hrw : (CB.run cfg obs m ((t, now) :: rest)).2 = cs := by
        simp [CB.run, hcase, hr]
      rw [hrw]
      have h2 := ih m
      rw [hr] at h2
      exact h2
    · have h2 := ih ⟨t, now, ((m.state, t), now) :: m.last_transition_times⟩
      rcases hr : CB.run cfg obs ⟨t, now, ((m.state, t), now) :: m.last_transition_times⟩ rest
        with ⟨mf, cs⟩
      rw [hr] at h2
      have hrw : (CB.run cfg obs m ((t, now) :: rest)).2 = (m.state, t, now) :: cs := by
        simp [CB.run, hcommit, hr]
      rw [hrw, CB.timesOf_cons]
      by_cases hp : (m.state, t) = p
      · rw [if_pos hp]
        have hd' : CB.dictGet (((m.state, t), now) :: m.last_transition_times) p = some now := by
          simp [CB.dictGet, hp]
        rw [hd'] at h2
        cases hdp : CB.dictGet m.last_transition_times p with
        | none => simpa using h2
        | some t0 =>
          have hle : cfg.debounce_window ≤ now - t0 := hguard t0 (by rw [hp]; exact hdp)
          simp only [Option.toList_some, List.singleton_append] at h2 ⊢
          exact List.chain'_cons.mpr ⟨hle, by simpa using h2⟩
      · rw [if_neg hp]
        have hd' : CB.dictGet (((m.state, t), now) :: m.last_transition_times) p =
            CB.dictGet m.last_transition_times p := by
          simp [CB.dictGet, hp]
        rw [hd'] at h2
        exact h2

/-- C7 (amended): the clawbeam variant keeps a last-fired timestamp per
(from, to) pair: a request whose pair last fired within the debounce window
is rejected outright, and over any request sequence the commits of a fixed
pair are at least one debounce window apart even when other pairs commit in
between.  The package variant (state_machine.py) keeps only the single most
recent transition key, so its debounce rejection applies only when the
requested pair matches that most recent key — an intervening different pair
clears it. -/
theorem c7_debounce_per_pair_amended :
    (∀ (cfg : StateMachineConfig) (obs : LampState → LampState → Bool)
        (m : CB.Machine) (t : LampState) (now t0 : ℚ),
      CB.dictGet m.last_transition_times (m.state, t) = some t0 →
      now - t0 < cfg.debounce_window →
      CB.do_transition cfg obs m t now = ⟨m, [], false⟩) ∧
    (∀ (cfg : StateMachineConfig) (obs : LampState → LampState → Bool)
        (m : CB.Machine) (reqs : List (LampState × ℚ)) (p : LampState × LampState),
      List.Chain' (fun a b => cfg.debounce_window ≤ b - a)
        ((CB.dictGet m.last_transition_times p).toList ++
          CB.timesOf p (CB.run cfg obs m reqs).2)) ∧
    (∀ (cfg : StateMachineConfig) (obs : LampState → LampState → Bool)
        (m : SM1.Machine) (t : LampState) (now : ℚ),
      some (m.state, t) = m.last_transition_key →
      now - m.last_transition_time < cfg.debounce_window →
      SM1.try_transition cfg obs m t now = ⟨m, [], false⟩) := by
  refine ⟨CB.do_transition_reject_debounce,
    fun cfg obs m reqs p => CB.run_debounce_chain cfg obs p reqs m, ?_⟩
  intro cfg obs m t now hk hw
  simp only [SM1.try_transition]
  by_cases h1 : now - m.state_entered_at < cfg.min_state_duration
  · rw [if_pos h1]
  · rw [if_neg h1, if_pos ⟨hk, hw⟩]

/-- C7 witness: a pair that fired at time 0 is rejected when re-requested
at time 1 inside a 10-second window, in both variants' matching situations. -/
theorem c7_debounce_per_pair_witness :
    CB.do_transition cfgD obsOk ⟨.IDLE, 0, [((.IDLE, .USER_INPUT), 0)]⟩ .USER_INPUT 1 =
      ⟨⟨.IDLE, 0, [((.IDLE, .USER_INPUT), 0)]⟩, [], false⟩ ∧
    SM1.try_transition cfgD obsOk ⟨.IDLE, 0, 0, some (.IDLE, .USER_INPUT), 0⟩ .USER_INPUT 1 =
      ⟨⟨.IDLE, 0, 0, some (.IDLE, .USER_INPUT), 0⟩, [], false⟩ :=
  ⟨c7_debounce_per_pair_amended.1 cfgD obsOk ⟨.IDLE, 0, [((.IDLE, .USER_INPUT), 0)]⟩
     .USER_INPUT 1 0 rfl (by norm_num [cfgD]),
   c7_debounce_per_pair_amended.2.2 cfgD obsOk ⟨.IDLE, 0, 0, some (.IDLE, .USER_INPUT), 0⟩
     .USER_INPUT 1 rfl (by norm_num [cfgD])⟩

/-- C7 counterexample: in the package variant (state_machine.py), the pair
IDLE→USER_INPUT commits at time 1, an intervening USER_INPUT→IDLE commit
overwrites the single debounce key, and the same IDLE→USER_INPUT request at
the same time 1 then commits again — twice within the 10-second window,
which the per-pair claim forbids. -/
theorem c7_debounce_per_pair_cex :
    CB.timesOf (.IDLE, .USER_INPUT)
        (SM1.run cfgD obsOk m1Idle [(.USER_INPUT, 1), (.IDLE, 1), (.USER_INPUT, 1)]).2 = [1, 1] ∧
    ¬ List.Chain' (fun a b => cfgD.debounce_window ≤ b - a) [(1 : ℚ), 1] := by
  constructor
  · have e1 : SM1.try_transition cfgD obsOk m1Idle .USER_INPUT 1 =
        ⟨⟨.USER_INPUT, 1, 0, some (.IDLE, .USER_INPUT), 1⟩, [(.IDLE, .USER_INPUT)], false⟩ :=
      SM1.try_transition_commit cfgD obsOk m1Idle .USER_INPUT 1
        (by norm_num [cfgD, m1Idle]) (by simp [m1Idle]) (by decide)
    have e2 : SM1.try_transition cfgD obsOk
        ⟨.USER_INPUT, 1, 0, some (.IDLE, .USER_INPUT), 1⟩ .IDLE 1 =
        ⟨⟨.IDLE, 1, 0, some (.USER_INPUT, .IDLE), 1⟩, [(.USER_INPUT, .IDLE)], false⟩ :=
      SM1.try_transition_commit cfgD obsOk ⟨.USER_INPUT, 1, 0, some (.IDLE, .USER_INPUT), 1⟩
        .IDLE 1 (by norm_num [cfgD]) (by simp) (by decide)
    have e3 : SM1.try_transition cfgD obsOk
        ⟨.IDLE, 1, 0, some (.USER_INPUT, .IDLE), 1⟩ .USER_INPUT 1 =
        ⟨⟨.USER_INPUT, 1, 0, some (.IDLE, .USER_INPUT), 1⟩, [(.IDLE, .USER_INPUT)], false⟩ :=
      SM1.try_transition_commit cfgD obsOk ⟨.IDLE, 1, 0, some (.USER_INPUT, .IDLE), 1⟩
        .USER_INPUT 1 (by norm_num [cfgD]) (by simp) (by decide)
    simp [SM1.run, e1, e2, e3, CB.timesOf, List.filter_cons]
  · simp only [List.chain'_cons, List.chain'_singleton, and_true]
    norm_num [cfgD]

/-- Helper: clean equation for drain_lines when the buffer has no newline. -/
theorem Tail.drain_lines_none (buf : List Char) (h : Tail.find_newline buf = none) :
    Tail.drain_lines buf = ([], buf) := by
  rw [Tail.drain_lines]
  split
  · rfl
  · next l r heq => rw [h] at heq; exact Option.noConfusion heq

/-- Helper: clean equation for drain_lines when the buffer has a newline. -/
theorem Tail.drain_lines_some (buf l r : List Char) (h : Tail.find_newline buf = some (l, r)) :
    Tail.drain_lines buf = (l :: (Tail.drain_lines r).1, (Tail.drain_lines r).2) := by
  rw [Tail.drain_lines]
  split
  · next heq => rw [h] at heq; exact Option.noConfusion heq
  · next l' r' heq =>
    rw [h] at heq
    injection heq with heq2
    injection heq2 with hl hr
    subst hl
    subst hr
    rfl

/-- Helper: unfolding equation for chop on a cons cell. -/
theorem Tail.chop_cons (c : Char) (rest : List Char) :
    Tail.chop (c :: rest) =
      if c = '\n' then ([] :: (Tail.chop rest).1, (Tail.chop rest).2)
      else
        match (Tail.chop rest).1 with
        | [] => ([], c :: (Tail.chop rest).2)
        | l :: ls2 => ((c :: l) :: ls2, (Tail.chop rest).2) := by
  rcases h : Tail.chop rest with ⟨ls, b⟩
  by_cases hc : c = '\n'
  · simp [Tail.chop, h, hc]
  · cases ls <;> simp [Tail.chop, h, hc]

/-- Helper: a buffer without a newline has no line to find. -/
theorem Tail.find_newline_none_mp : ∀ l : List Char, Tail.find_newline l = none → '\n' ∉ l := by
  intro l
  induction l with
  | nil => intro _; simp
  | cons c rest ih =>
    intro h
    by_cases hc : c = '\n'
    · subst hc; simp [Tail.find_newline] at h
    · simp only [Tail.find_newline, if_neg hc] at h
      cases hfr : Tail.find_newline rest with
      | none =>
        have hr := ih hfr
        simp only [List.mem_cons]
        rintro (heq | hmem)
        · exact hc heq.symm
        · exact hr hmem
      | some pr =>
        rw [hfr] at h
        obtain ⟨a, b⟩ := pr
        exact Option.noConfusion h

/-- Helper: chop leaves a buffer without newlines untouched. -/
theorem Tail.chop_of_no_newline : ∀ buf : List Char, '\n' ∉ buf → Tail.chop buf = ([], buf) := by
  intro buf
  induction buf with
  | nil => intro _; rfl
  | cons c rest ih =>
    intro h
    have hc : c ≠ '\n' := fun hc => h (by simp [hc])
    have hr : '\n' ∉ rest := fun hm => h (List.mem_cons_of_mem _ hm)
    rw [Tail.chop_cons, if_neg hc, ih hr]

/-- Helper: the remainder chop leaves buffered contains no newline. -/
theorem Tail.chop_snd_no_newline : ∀ buf : List Char, '\n' ∉ (Tail.chop buf).2 := by
  intro buf
  induction buf with
  | nil => simp [Tail.chop]
  | cons c rest ih =>
    rw [Tail.chop_cons]
    by_cases hc : c = '\n'
    · simpa [hc] using ih
    · rw [if_neg hc]
      cases hls : (Tail.chop rest).1 with
      | nil =>
        simp only [List.mem_cons]
        rintro (heq | hmem)
        · exact hc heq.symm
        · exact ih hmem
      | cons l ls2 => simpa using ih

/-- Helper: the while-split loop drain_lines computes the same split as the
structural chop. -/
theorem Tail.drain_eq_chop : ∀ buf : List Char, Tail.drain_lines buf = Tail.chop buf := by
  intro buf
  induction buf with
  | nil => exact Tail.drain_lines_none [] rfl
  | cons c rest ih =>
    by_cases hc : c = '\n'
    · subst hc
      have hf : Tail.find_newline ('\n' :: rest) = some ([], rest) := by
        simp [Tail.find_newline]
      rw [Tail.drain_lines_some _ [] rest hf, ih, Tail.chop_cons, if_pos rfl]
    · cases hfr : Tail.find_newline rest with
      | none =>
        have hf : Tail.find_newline (c :: rest) = none := by
          simp [Tail.find_newline, hfr, hc]
        have hnr : '\n' ∉ rest := Tail.find_newline_none_mp rest hfr
        rw [Tail.drain_lines_none _ hf, Tail.chop_of_no_newline (c :: rest) (by
          simp only [List.mem_cons]
          rintro (heq | hmem)
          · exact hc heq.symm
          · exact hnr hmem)]
      | some pr =>
        obtain ⟨l, r⟩ := pr
        have hf : Tail.find_newline (c :: rest) = some (c :: l, r) := by
          simp [Tail.find_newline, hfr, hc]
        have hrest : Tail.chop rest = (l :: (Tail.drain_lines r).1, (Tail.drain_lines r).2) := by
          rw [← ih]
          exact Tail.drain_lines_some rest l r hfr
        rw [Tail.drain_lines_some _ (c :: l) r hf, Tail.chop_cons, if_neg hc, hrest]

/-- Helper: chopping an extended buffer first emits the lines of the old
buffer, then the lines obtained by chopping the remainder plus the new data. -/
theorem Tail.chop_append : ∀ s t : List Char,
    Tail.chop (s ++ t) =
      ((Tail.chop s).1 ++ (Tail.chop ((Tail.chop s).2 ++ t)).1,
        (Tail.chop ((Tail.chop s).2 ++ t)).2) := by
  intro s
  induction s with
  | nil => intro t; simp [Tail.chop]
  | cons c s2 ih =>
    intro t
    rcases h2 : Tail.chop s2 with ⟨ls2, b2⟩
    have ihc := ih t
    rw [h2] at ihc
    by_cases hc : c = '\n'
    · subst hc
      rw [List.cons_append, Tail.chop_cons, if_pos rfl, ihc, Tail.chop_cons, if_pos rfl, h2]
      simp
    · cases hls : ls2 with
      | nil =>
        subst hls
        rw [List.cons_append, Tail.chop_cons, if_neg hc, ihc, Tail.chop_cons, if_neg hc, h2]
        simp only [List.nil_append]
        rcases hP : Tail.chop (b2 ++ t) with ⟨L, B⟩
        cases L with
        | nil =>
          rw [List.cons_append, Tail.chop_cons, if_neg hc, hP]
        | cons l0 L2 =>
          rw [List.cons_append, Tail.chop_cons, if_neg hc, hP]
      | cons l ls3 =>
        subst hls
        rw [List.cons_append, Tail.chop_cons, if_neg hc, ihc, Tail.chop_cons, if_neg hc, h2]
        simp

/-- Helper: with the read cursor at end-of-file and a newline-free buffer,
the tail loop yields exactly the complete lines of the appended bytes. -/
theorem Tail.tail_run_eq : ∀ (apps : List (List Char)) (f : Tail.FileSt) (buf : List Char),
    f.pos = f.content.length → '\n' ∉ buf →
    Tail.tail_run_from ⟨f, buf⟩ apps = (Tail.chop (buf ++ apps.join)).1 := by
  intro apps
  induction apps with
  | nil =>
    intro f buf hp hb
    simp [Tail.tail_run_from, Tail.chop_of_no_newline buf hb]
  | cons app rest ih =>
    intro f buf hp hb
    have hread : Tail.fh_read (Tail.fs_append f app) =
        (app, ⟨f.content ++ app, (f.content ++ app).length⟩) := by
      simp [Tail.fh_read, Tail.fs_append, hp]
    by_cases happ : app.isEmpty
    · have happ' : app = [] := by simpa using happ
      subst happ'
      have hstep : Tail.tail_step ⟨f, buf⟩ [] =
          (⟨⟨f.content ++ [], (f.content ++ []).length⟩, buf⟩, []) := by
        simp [Tail.tail_step, hread]
      simp only [Tail.tail_run_from, hstep, List.nil_append]
      have h2 := ih ⟨f.content ++ [], (f.content ++ []).length⟩ buf rfl hb
      simpa using h2
    · have hne : ¬ (app.isEmpty = true) := happ
      rcases hch : Tail.chop (buf ++ app) with ⟨ls, b'⟩
      have hstep : Tail.tail_step ⟨f, buf⟩ app =
          (⟨⟨f.content ++ app, (f.content ++ app).length⟩, b'⟩, ls) := by
        simp [Tail.tail_step, hread, hne, Tail.drain_eq_chop, hch]
      simp only [Tail.tail_run_from, hstep]
      have hb' : '\n' ∉ b' := by
        have := Tail.chop_snd_no_newline (buf ++ app)
        rw [hch] at this
        exact this
      have h2 := ih ⟨f.content ++ app, (f.content ++ app).length⟩ b' rfl hb'
      rw [h2]
      have h3 := Tail.chop_append (buf ++ app) rest.join
      rw [hch] at h3
      have h4 : buf ++ (app :: rest).join = (buf ++ app) ++ rest.join := by
        simp [List.join]
      rw [h4, h3]

/-- Helper: chopping a single newline-terminated line followed by more data
emits that line first. -/
theorem Tail.chop_line : ∀ (a t : List Char), '\n' ∉ a →
    Tail.chop (a ++ '\n' :: t) = (a :: (Tail.chop t).1, (Tail.chop t).2) := by
  intro a
  induction a with
  | nil =>
    intro t _
    rw [List.nil_append, Tail.chop_cons, if_pos rfl]
  | cons c a2 ih =>
    intro t ha
    have hc : c ≠ '\n' := fun h => ha (by simp [h])
    have ha2 : '\n' ∉ a2 := fun h => ha (List.mem_cons_of_mem _ h)
    rw [List.cons_append, Tail.chop_cons, if_neg hc, ih t ha2]

/-- C9: tail_file started on a file seeks to end-of-file and thereafter
yields exactly the complete lines appended after the start — one line per
discovered newline, in append order, each without its trailing newline,
with partial writes buffered until their newline arrives — and content
present before the tail started is never yielded: whatever the initial
content c0 and however the appended bytes are batched between polls, the
yield sequence is exactly the complete lines of the appended bytes; in
particular starting on any file and appending three newline-terminated
lines yields exactly those three lines in order. -/
theorem c9_tail_file_yields_appended_lines :
    (∀ (c0 : List Char) (appends : List (List Char)),
      Tail.tail_file c0 appends = (Tail.chop appends.join).1) ∧
    (∀ (c0 a b c : List Char), '\n' ∉ a → '\n' ∉ b → '\n' ∉ c →
      Tail.tail_file c0 [a ++ ['\n'], b ++ ['\n'], c ++ ['\n']] = [a, b, c]) := by
  have hmain : ∀ (c0 : List Char) (appends : List (List Char)),
      Tail.tail_file c0 appends = (Tail.chop appends.join).1 := by
    intro c0 appends
    have := Tail.tail_run_eq appends (Tail.tail_open c0) [] rfl (by simp)
    simpa [Tail.tail_file] using this
  refine ⟨hmain, ?_⟩
  intro c0 a b c ha hb hc
  rw [hmain]
  have h1 : ([a ++ ['\n'], b ++ ['\n'], c ++ ['\n']] : List (List Char)).join =
      a ++ '\n' :: (b ++ '\n' :: (c ++ '\n' :: ([] : List Char))) := by
    simp [List.join]
  rw [h1, Tail.chop_line a _ ha, Tail.chop_line b _ hb, Tail.chop_line c _ hc]
  simp [Tail.chop]

/-- C9 witness: starting on a file already containing a line, appending
three newline-terminated lines yields exactly those three lines, in order,
without their newlines — and nothing from the pre-existing content. -/
theorem c9_tail_file_yields_appended_lines_witness :
    Tail.tail_file ['o', 'l', 'd', '\n']
        [['l', '1', '\n'], ['l', '2', '\n'], ['l', '3', '\n']] =
      [['l', '1'], ['l', '2'], ['l', '3']] :=
  c9_tail_file_yields_appended_lines.2 ['o', 'l', 'd', '\n'] ['l', '1'] ['l', '2'] ['l', '3']
    (by decide) (by decide) (by decide)

/-- Helper: a bind that produced a success came from a success. -/
theorem exceptBind_ok {α β ε : Type} {x : Except ε α} {f : α → Except ε β} {b : β}
    (h : x >>= f = .ok b) : ∃ a, x = .ok a ∧ f a = .ok b := by
  cases x with
  | error e => simp [Bind.bind, Except.bind] at h
  | ok a => exact ⟨a, rfl, by simpa [Bind.bind, Except.bind] using h⟩

/-- More fixtures: a user record carrying an explicit id field. -/
def objI : PyVal := .dict [("type", .str "user"), ("id", .str "abc")]

/-- A json.loads model decoding the line "u" to objI. -/
def decI : String → Option PyVal :=
  fun s => if s = "u" then some objI else Option.none

/-- C8: for blank, whitespace-only and JSON-undecodable lines both
parse_line variants return none without raising; but a line that json.loads
does decode to a non-object value — the line "5" decodes to the integer
5 — makes both variants call .get on a non-dict and raise AttributeError,
so "never raises" fails on malformed-but-JSON-decodable input. -/
theorem c8_parse_line_malformed :
    (∀ (dec : String → Option PyVal) (fresh : String) (iso : PyVal → Option ℤ) (now : ℤ)
        (line : String), pyStrEmpty (pyStrip line) = true →
      P1.parse_line dec fresh iso now line = .ok Option.none) ∧
    (∀ (dec : String → Option PyVal) (fresh : String) (iso : PyVal → Option ℤ) (now : ℤ)
        (line : String), dec (pyStrip line) = Option.none →
      P1.parse_line dec fresh iso now line = .ok Option.none) ∧
    (∀ (dec : String → Option PyVal) (iso : String → Option ℤ) (now : ℤ) (line : String),
      pyStrEmpty (pyStrip line) = true →
      P2.parse_line dec iso now line = .ok Option.none) ∧
    (∀ (dec : String → Option PyVal) (iso : String → Option ℤ) (now : ℤ) (line : String),
      dec line = Option.none →
      P2.parse_line dec iso now line = .ok Option.none) ∧
    (P1.parse_line dec5 "f" iso0 0 "5" = .error .attributeError ∧
      P2.parse_line dec5 isoS 0 "5" = .error .attributeError) := by
  refine ⟨?_, ?_, ?_, ?_, rfl, rfl⟩
  · intro dec fresh iso now line h
    simp [P1.parse_line, h, pure, Except.pure]
  · intro dec fresh iso now line h
    by_cases hb : pyStrEmpty (pyStrip line) = true
    · simp [P1.parse_line, hb, pure, Except.pure]
    · simp [P1.parse_line, hb, h, pure, Except.pure, Bind.bind, Except.bind]
  · intro dec iso now line h
    simp [P2.parse_line, h, pure, Except.pure]
  · intro dec iso now line h
    by_cases hb : (pyStrEmpty line = true ∨ pyStrEmpty (pyStrip line) = true)
    · simp [P2.parse_line, hb, pure, Except.pure]
    · simp [P2.parse_line, hb, h, pure, Except.pure, Bind.bind, Except.bind]

/-- C8 witness: whitespace-only and non-JSON lines give none from both
variants. -/
theorem c8_parse_line_malformed_witness :
    P1.parse_line dec5 "f" iso0 0 "   " = .ok Option.none ∧
    P1.parse_line dec5 "f" iso0 0 "junk" = .ok Option.none ∧
    P2.parse_line dec5 isoS 0 "" = .ok Option.none ∧
    P2.parse_line dec5 isoS 0 "junk" = .ok Option.none :=
  ⟨c8_parse_line_malformed.1 dec5 "f" iso0 0 "   " rfl,
   c8_parse_line_malformed.2.1 dec5 "f" iso0 0 "junk" rfl,
   c8_parse_line_malformed.2.2.1 dec5 isoS 0 "" rfl,
   c8_parse_line_malformed.2.2.2.1 dec5 isoS 0 "junk" rfl⟩

/-- C10 (amended): in parser.py every produced Event has the freshly
generated uuid as its id — the record's explicit id field is never
consulted; in clawbeam/parser.py the id is the record's id field when that
is truthy, else the record's timestamp field when truthy, else Python None
— so an event from a record with neither field has no identifier at all. -/
theorem c10_event_id_amended :
    (∀ (dec : String → Option PyVal) (fresh : String) (iso : PyVal → Option ℤ) (now : ℤ)
        (line : String) (ev : P1.Event),
      P1.parse_line dec fresh iso now line = .ok (some ev) → ev.id = fresh) ∧
    (∀ (dec : String → Option PyVal) (iso : String → Option ℤ) (now : ℤ) (line : String)
        (kvs : List (String × PyVal)) (ev : P2.Event),
      dec line = some (.dict kvs) →
      P2.parse_line dec iso now line = .ok (some ev) →
      ev.id =
        (if ((PyVal.lookup kvs "id").getD PyVal.none).truthy then
          (PyVal.lookup kvs "id").getD PyVal.none
         else if ((PyVal.lookup kvs "timestamp").getD PyVal.none).truthy then
          (PyVal.lookup kvs "timestamp").getD PyVal.none
         else PyVal.none)) := by
  constructor
  · intro dec fresh iso now line ev h
    simp only [P1.parse_line] at h
    split at h
    · simp [pure, Except.pure] at h
    · split at h
      · simp [pure, Except.pure, Bind.bind, Except.bind] at h
      · obtain ⟨u, _, h⟩ := exceptBind_ok h
        obtain ⟨msg, _, h⟩ := exceptBind_ok h
        obtain ⟨roleV, _, h⟩ := exceptBind_ok h
        obtain ⟨role, _, h⟩ := exceptBind_ok h
        obtain ⟨rtV, _, h⟩ := exceptBind_ok h
        obtain ⟨record_type, _, h⟩ := exceptBind_ok h
        -- the event-type dispatch inlines the rest of the body into each
        -- branch; split them all, the tool_result branch twice
        split at h
        · obtain ⟨y, _, h⟩ := exceptBind_ok h
          obtain ⟨usage, _, h⟩ := exceptBind_ok h
          obtain ⟨tsA, _, h⟩ := exceptBind_ok h
          obtain ⟨tsB, _, h⟩ := exceptBind_ok h
          simp only [pure, Except.pure] at h
          injection h with h1
          injection h1 with h2
          rw [← h2]
        · split at h
          · obtain ⟨y, _, h⟩ := exceptBind_ok h
            obtain ⟨usage, _, h⟩ := exceptBind_ok h
            obtain ⟨tsA, _, h⟩ := exceptBind_ok h
            obtain ⟨tsB, _, h⟩ := exceptBind_ok h
            simp only [pure, Except.pure] at h
            injection h with h1
            injection h1 with h2
            rw [← h2]
          · split at h
            · obtain ⟨e, _, h⟩ := exceptBind_ok h
              split at h
              · obtain ⟨y, _, h⟩ := exceptBind_ok h
                obtain ⟨usage, _, h⟩ := exceptBind_ok h
                obtain ⟨tsA, _, h⟩ := exceptBind_ok h
                obtain ⟨tsB, _, h⟩ := exceptBind_ok h
                simp only [pure, Except.pure] at h
                injection h with h1
                injection h1 with h2
                rw [← h2]
              · obtain ⟨y, _, h⟩ := exceptBind_ok h
                obtain ⟨usage, _, h⟩ := exceptBind_ok h
                obtain ⟨tsA, _, h⟩ := exceptBind_ok h
                obtain ⟨tsB, _, h⟩ := exceptBind_ok h
                simp only [pure, Except.pure] at h
                injection h with h1
                injection h1 with h2
                rw [← h2]
            · split at h
              · obtain ⟨y, _, h⟩ := exceptBind_ok h
                obtain ⟨usage, _, h⟩ := exceptBind_ok h
                obtain ⟨tsA, _, h⟩ := exceptBind_ok h
                obtain ⟨tsB, _, h⟩ := exceptBind_ok h
                simp only [pure, Except.pure] at h
                injection h with h1
                injection h1 with h2
                rw [← h2]
              · obtain ⟨y, _, h⟩ := exceptBind_ok h
                obtain ⟨usage, _, h⟩ := exceptBind_ok h
                obtain ⟨tsA, _, h⟩ := exceptBind_ok h
                obtain ⟨tsB, _, h⟩ := exceptBind_ok h
                simp only [pure, Except.pure] at h
                injection h with h1
                injection h1 with h2
                rw [← h2]
  · intro dec iso now line kvs ev hdec h
    simp only [P2.parse_line, hdec] at h
    split at h
    · simp [pure, Except.pure] at h
    · obtain ⟨u, _, h⟩ := exceptBind_ok h
      obtain ⟨type_str, ht, h⟩ := exceptBind_ok h
      obtain ⟨message0, hm, h⟩ := exceptBind_ok h
      obtain ⟨usage0, hu, h⟩ := exceptBind_ok h
      obtain ⟨pair, hp, h⟩ := exceptBind_ok h
      obtain ⟨tsV, hts, h⟩ := exceptBind_ok h
      obtain ⟨idV, hid, h⟩ := exceptBind_ok h
      obtain ⟨tsV2, hts2, h⟩ := exceptBind_ok h
      simp only [pure, Except.pure] at h
      injection h with h1
      injection h1 with h2
      simp only [pyGet, pyGetD] at hid hts2
      have hid' : idV = (PyVal.lookup kvs "id").getD PyVal.none := by
        injection hid with hid; exact hid.symm
      have hts2' : tsV2 = (PyVal.lookup kvs "timestamp").getD PyVal.none := by
        injection hts2 with hts2; exact hts2.symm
      rw [← h2, hid', hts2']

/-- C10 counterexample: a clawbeam-parser event built from a record with
neither an id nor a timestamp field carries Python None as its id — not a
non-empty, freshly generated identifier; and the package parser ignores an
explicit id field entirely, substituting the fresh uuid. -/
theorem c10_event_id_cex :
    P2.parse_line decU isoS 0 "u" =
      .ok (some ⟨PyVal.none, .USER_INPUT, .dict [("role", .str "user")], .INFO, Option.none, 0⟩) ∧
    PyVal.none.truthy = false ∧
    P1.parse_line decI "FRESH" iso0 7 "u" =
      .ok (some ⟨"FRESH", .USER_INPUT, .INFO, 7, objI, PyVal.none⟩) ∧
    ("FRESH" : String) ≠ "abc" := by
  refine ⟨rfl, rfl, rfl, by decide⟩

/-- C10 witness: the amended id rules applied to a concrete record with an
explicit id — the package parser's event still carries the fresh uuid, and
the clawbeam parser's event carries the record's id. -/
theorem c10_event_id_witness :
    (⟨"FRESH", .USER_INPUT, .INFO, 7, objI, PyVal.none⟩ : P1.Event).id = "FRESH" ∧
    (⟨PyVal.str "abc", .USER_INPUT, .dict [], .INFO, Option.none, 0⟩ : P2.Event).id =
      PyVal.str "abc" :=
  ⟨c10_event_id_amended.1 decI "FRESH" iso0 7 "u"
     ⟨"FRESH", .USER_INPUT, .INFO, 7, objI, PyVal.none⟩ rfl,
   c10_event_id_amended.2 decI isoS 0 "u" [("type", .str "user"), ("id", .str "abc")]
     ⟨PyVal.str "abc", .USER_INPUT, .dict [], .INFO, Option.none, 0⟩ rfl rfl⟩
